import Mathlib

/-!
Shallow embedding of the skill-verification REST service (src/index.ts).

The service keeps a single key-value store from user id to a User aggregate
(azle StableBTreeMap). Each Express route handler is embedded as a pure
function from the store (plus the parsed request) to a result paired with
the post-state of the store. Request bodies are arbitrary JSON; we model
exactly the fields the handlers and validators read, each as an Option
(absent = the JSON field is missing). The express-validator chains run
before each handler body, so validation outcomes are computed first where
the code checks validationResult first.
-/

namespace SkillVerify

/-- Rating record (class Rating in index.ts). createdAt is the IC timestamp
obtained from the injected clock, modelled as a Nat parameter. -/
structure Rating where
  userId : String
  score : Int
  comment : Option String
  createdAt : Nat
  deriving Repr, DecidableEq

/-- Skill record (class Skill in index.ts). -/
structure Skill where
  name : String
  verified : Bool
  ratings : List Rating
  deriving Repr, DecidableEq

/-- User aggregate (class User in index.ts). -/
structure User where
  id : String
  name : String
  age : Int
  skills : List Skill
  deriving Repr, DecidableEq

/-- usersStorage: StableBTreeMap from user id to User, modelled as an
association list with unique keys. Enumeration order is not needed by any
claim, so insert replaces in place or appends. -/
abbrev Store := List (String × User)

/-- usersStorage.get(id).Some -/
def Store.get : Store → String → Option User
  | [], _ => none
  | (k, v) :: rest, i => if k = i then some v else Store.get rest i

/-- usersStorage.insert(id, user): upsert of the full aggregate. -/
def Store.insert : Store → String → User → Store
  | [], k, v => [(k, v)]
  | (k0, v0) :: rest, k, v =>
    if k0 = k then (k, v) :: rest else (k0, v0) :: Store.insert rest k v

/-- usersStorage.remove(id). -/
def Store.remove (st : Store) (k : String) : Store :=
  st.filter (fun p => p.1 != k)

/-- Request body of POST /users and PUT /users/:id. The validators read
name and age; the object spread also copies any id or skills field the
caller supplies. A field is None when absent from the JSON body. -/
structure UserBody where
  name : Option String
  age : Option Int
  id : Option String
  skills : Option (List Skill)
  deriving Repr, DecidableEq

/-- One element of the skills array in the body of POST /users/:id/skills:
the wildcard validator reads skills.*.name. -/
structure SkillBody where
  name : Option String
  deriving Repr, DecidableEq

/-- Request body of POST /users/:userId/skills/:skillName/verify. -/
structure RatingBody where
  userId : Option String
  score : Option Int
  comment : Option String
  deriving Repr, DecidableEq

/-- Outcome of POST /users: 400 from userInputValidator, or 201 + User. -/
inductive CreateResult where
  | validationError
  | created (u : User)
  deriving Repr, DecidableEq

/-- Outcome of POST /users/:id/skills: 404, 400, or 201 + updated skills. -/
inductive AddSkillsResult where
  | notFound
  | validationError
  | ok (skills : List Skill)
  deriving Repr, DecidableEq

/-- Outcome of POST /users/:userId/skills/:skillName/verify. conflict is
the existing-rating branch (the handler serves it as status 400; the spec
error taxonomy names this failure Conflict and maps it to 400/409). -/
inductive VerifyResult where
  | validationError
  | notFound
  | conflict
  | ok (s : Skill)
  deriving Repr, DecidableEq

/-- Outcome of PUT /users/:id: 400, 404, or 200 + merged User. -/
inductive UpdateResult where
  | validationError
  | notFound
  | ok (u : User)
  deriving Repr, DecidableEq

/-- Outcome of DELETE /users/:id and DELETE /users/:id/skills/:skillName. -/
inductive SimpleResult where
  | notFound
  | ok
  deriving Repr, DecidableEq

/-- userInputValidator: body.name must be a string (a missing field fails
isString) and body.age must be an integer with min 0. -/
def userBodyValid (b : UserBody) : Bool :=
  match b.name, b.age with
  | some _, some a => decide (0 ≤ a)
  | _, _ => false

/-- POST /users: on validation failure 400 and no mutation; otherwise the
new record is the generated fields overridden by the spread of req.body
(so a caller-supplied id or skills wins), inserted at the resulting id. -/
def createUser (st : Store) (freshId : String) (b : UserBody) :
    CreateResult × Store :=
  if userBodyValid b then
    let u : User :=
      { id := b.id.getD freshId
        name := b.name.getD ""
        age := (b.age.getD 0)
        skills := b.skills.getD [] }
    (CreateResult.created u, st.insert u.id u)
  else (CreateResult.validationError, st)

/-- A pushed skill in POST /users/:id/skills: name from the body element,
verified false, empty ratings. -/
def mkSkill (sb : SkillBody) : Skill :=
  { name := sb.name.getD "", verified := false, ratings := [] }

/-- POST /users/:id/skills: 404 if the user is absent; 400 if req.body.skills
is not an array; 400 if some element lacks a string name (validator
skills.*.name); otherwise each element is appended as an unverified skill
with empty ratings and the aggregate is re-inserted. -/
def addSkills (st : Store) (uid : String)
    (skillsField : Option (List SkillBody)) : AddSkillsResult × Store :=
  match st.get uid with
  | none => (AddSkillsResult.notFound, st)
  | some user =>
    match skillsField with
    | none => (AddSkillsResult.validationError, st)
    | some sbs =>
      if sbs.all (fun sb => sb.name.isSome) then
        let user2 : User := { user with skills := user.skills ++ sbs.map mkSkill }
        (AddSkillsResult.ok user2.skills, st.insert uid user2)
      else (AddSkillsResult.validationError, st)

/-- validateRatingInput: body.userId must be a string and body.score an
integer in [1,5] (comment is optional). -/
def ratingBodyValid (b : RatingBody) : Bool :=
  match b.userId, b.score with
  | some _, some sc => decide (1 ≤ sc) && decide (sc ≤ 5)
  | _, _ => false

/-- The handler pushes onto the Skill object returned by find, mutating it
inside user.skills: replace the first skill with the given name. -/
def setFirstSkill : List Skill → String → Skill → List Skill
  | [], _, _ => []
  | s :: rest, n, s2 =>
    if s.name == n then s2 :: rest else s :: setFirstSkill rest n s2

/-- POST /users/:userId/skills/:skillName/verify. The handler checks
validationResult first, then the owner, the verifier, the skill, and an
existing rating by the same verifier; only then does it push the new
rating, recompute verified from ratings.length, and re-insert the owner
aggregate. now is the timestamp from getCurrentDate. -/
def verifySkill (st : Store) (uid skillName : String) (b : RatingBody)
    (now : Nat) : VerifyResult × Store :=
  if ratingBodyValid b then
    match st.get uid with
    | none => (VerifyResult.notFound, st)
    | some user =>
      let vid := b.userId.getD ""
      match st.get vid with
      | none => (VerifyResult.notFound, st)
      | some _ =>
        match user.skills.find? (fun s => s.name == skillName) with
        | none => (VerifyResult.notFound, st)
        | some skill =>
          match skill.ratings.find? (fun r => r.userId == vid) with
          | some _ => (VerifyResult.conflict, st)
          | none =>
            let newRatings := skill.ratings ++
              [{ userId := vid, score := b.score.getD 0, comment := b.comment,
                 createdAt := now }]
            let skill2 : Skill :=
              { skill with ratings := newRatings
                           verified := decide (newRatings.length > 0) }
            let user2 : User :=
              { user with skills := setFirstSkill user.skills skillName skill2 }
            (VerifyResult.ok skill2, st.insert uid user2)
  else (VerifyResult.validationError, st)

/-- PUT /users/:id: validationResult is checked first (userInputValidator,
so name and age are both required); then 404 if the id is absent; then the
stored record is spread-merged with req.body (body fields win, including a
caller-supplied id or skills) and re-inserted at the path id. -/
def updateUser (st : Store) (uid : String) (b : UserBody) :
    UpdateResult × Store :=
  if userBodyValid b then
    match st.get uid with
    | none => (UpdateResult.notFound, st)
    | some user =>
      let user2 : User :=
        { id := b.id.getD user.id
          name := b.name.getD user.name
          age := b.age.getD user.age
          skills := b.skills.getD user.skills }
      (UpdateResult.ok user2, st.insert uid user2)
  else (UpdateResult.validationError, st)

/-- DELETE /users/:id. -/
def deleteUser (st : Store) (uid : String) : SimpleResult × Store :=
  match st.get uid with
  | none => (SimpleResult.notFound, st)
  | some _ => (SimpleResult.ok, st.remove uid)

/-- DELETE /users/:id/skills/:skillName: findIndex then splice(index, 1). -/
def removeSkill (st : Store) (uid skillName : String) :
    SimpleResult × Store :=
  match st.get uid with
  | none => (SimpleResult.notFound, st)
  | some user =>
    match user.skills.findIdx? (fun s => s.name == skillName) with
    | none => (SimpleResult.notFound, st)
    | some idx =>
      let user2 : User := { user with skills := user.skills.eraseIdx idx }
      (SimpleResult.ok, st.insert uid user2)

/-- GET /users/:id. -/
def getUser (st : Store) (uid : String) : Option User :=
  st.get uid

/-- GET /users/:id/skills. -/
def listSkills (st : Store) (uid : String) : Option (List Skill) :=
  (st.get uid).map User.skills

/-- A mutating request against the service, for reachability statements. -/
inductive Op where
  | create (freshId : String) (b : UserBody)
  | addSkills (uid : String) (skillsField : Option (List SkillBody))
  | verify (uid skillName : String) (b : RatingBody) (now : Nat)
  | update (uid : String) (b : UserBody)
  | removeSkill (uid skillName : String)
  | deleteUser (uid : String)
  deriving Repr, DecidableEq

/-- The store after serving one request. -/
def applyOp (st : Store) : Op → Store
  | Op.create fid b => (createUser st fid b).2
  | Op.addSkills uid f => (SkillVerify.addSkills st uid f).2
  | Op.verify uid sn b now => (verifySkill st uid sn b now).2
  | Op.update uid b => (updateUser st uid b).2
  | Op.removeSkill uid sn => (SkillVerify.removeSkill st uid sn).2
  | Op.deleteUser uid => (SkillVerify.deleteUser st uid).2

/-- Whether the request succeeded (2xx response). -/
def opOk (st : Store) : Op → Bool
  | Op.create fid b =>
    match (createUser st fid b).1 with
    | CreateResult.created _ => true
    | _ => false
  | Op.addSkills uid f =>
    match (SkillVerify.addSkills st uid f).1 with
    | AddSkillsResult.ok _ => true
    | _ => false
  | Op.verify uid sn b now =>
    match (verifySkill st uid sn b now).1 with
    | VerifyResult.ok _ => true
    | _ => false
  | Op.update uid b =>
    match (updateUser st uid b).1 with
    | UpdateResult.ok _ => true
    | _ => false
  | Op.removeSkill uid sn =>
    match (SkillVerify.removeSkill st uid sn).1 with
    | SimpleResult.ok => true
    | _ => false
  | Op.deleteUser uid =>
    match (SkillVerify.deleteUser st uid).1 with
    | SimpleResult.ok => true
    | _ => false

/-- The store after serving a sequence of requests. -/
def run (st : Store) (ops : List Op) : Store :=
  ops.foldl applyOp st

/-- The derived-flag invariant for one skill: verified iff some rating. -/
def skillOk (s : Skill) : Bool :=
  s.verified == decide (s.ratings.length > 0)

/-- The derived-flag invariant for one aggregate. -/
def userOk (u : User) : Bool :=
  u.skills.all skillOk

/-- The derived-flag invariant for the whole store. -/
def storeOk (st : Store) : Bool :=
  st.all (fun p => userOk p.2)

/-- A body that supplies only the documented fields name and age, with no
caller-supplied id or skills riding in on the object spread. -/
def UserBody.plain (b : UserBody) : Bool :=
  b.id == none && b.skills == none

/-- An operation whose create or update body is plain. -/
def Op.plain : Op → Bool
  | Op.create _ b => b.plain
  | Op.update _ b => b.plain
  | _ => true

/-! Store lemmas -/

theorem Store.get_insert_self (st : Store) (k : String) (v : User) :
    (st.insert k v).get k = some v := by
  induction st with
  | nil => simp [Store.insert, Store.get]
  | cons q rest ih =>
    obtain ⟨k0, v0⟩ := q
    by_cases h : k0 = k
    · simp [Store.insert, h, Store.get]
    · simp [Store.insert, h, Store.get, ih]

theorem Store.mem_insert {st : Store} {k : String} {v : User}
    {p : String × User} (h : p ∈ st.insert k v) : p = (k, v) ∨ p ∈ st := by
  induction st with
  | nil => simpa [Store.insert] using h
  | cons q rest ih =>
    obtain ⟨k0, v0⟩ := q
    by_cases hk : k0 = k
    · simp [Store.insert, hk] at h
      rcases h with h | h
      · exact Or.inl (by simp [h])
      · exact Or.inr (by simp [h])
    · simp [Store.insert, hk] at h
      rcases h with h | h
      · exact Or.inr (by simp [h])
      · rcases ih h with h2 | h2
        · exact Or.inl h2
        · exact Or.inr (by simp [h2])

theorem Store.get_mem {st : Store} {i : String} {u : User}
    (h : st.get i = some u) : ∃ k, (k, u) ∈ st := by
  induction st with
  | nil => simp [Store.get] at h
  | cons q rest ih =>
    obtain ⟨k0, v0⟩ := q
    by_cases hk : k0 = i
    · simp [Store.get, hk] at h
      exact ⟨k0, by simp [h]⟩
    · simp [Store.get, hk] at h
      obtain ⟨k, hm⟩ := ih h
      exact ⟨k, by simp [hm]⟩

theorem mem_setFirstSkill {l : List Skill} {n : String} {s2 s : Skill}
    (h : s ∈ setFirstSkill l n s2) : s = s2 ∨ s ∈ l := by
  induction l with
  | nil => simp [setFirstSkill] at h
  | cons a rest ih =>
    by_cases ha : a.name == n
    · simp [setFirstSkill, ha] at h
      rcases h with h | h
      · exact Or.inl h
      · exact Or.inr (by simp [h])
    · simp [setFirstSkill, ha] at h
      rcases h with h | h
      · exact Or.inr (by simp [h])
      · rcases ih h with h2 | h2
        · exact Or.inl h2
        · exact Or.inr (by simp [h2])

/-! Invariant infrastructure for the derived verified flag -/

theorem storeOk_get {st : Store} {i : String} {u : User}
    (hst : storeOk st = true) (h : st.get i = some u) : userOk u = true := by
  obtain ⟨k, hm⟩ := Store.get_mem h
  exact (List.all_eq_true.mp hst) _ hm

theorem storeOk_insert {st : Store} {k : String} {u : User}
    (hst : storeOk st = true) (hu : userOk u = true) :
    storeOk (st.insert k u) = true := by
  refine List.all_eq_true.mpr ?_
  intro p hp
  rcases Store.mem_insert hp with h | h
  · simp [h, hu]
  · exact (List.all_eq_true.mp hst) _ h

theorem storeOk_remove {st : Store} {k : String}
    (hst : storeOk st = true) : storeOk (st.remove k) = true := by
  refine List.all_eq_true.mpr ?_
  intro p hp
  exact (List.all_eq_true.mp hst) _ (List.mem_of_mem_filter hp)

theorem applyOp_storeOk {st : Store} {op : Op}
    (hst : storeOk st = true) (hp : op.plain = true) :
    storeOk (applyOp st op) = true := by
  cases op with
  | create fid b =>
    simp [Op.plain, UserBody.plain] at hp
    by_cases hv : userBodyValid b
    · have hsk : b.skills = none := by
        rcases hb : b.skills with _ | s
        · rfl
        · simp [hb] at hp
      simp [applyOp, createUser, hv, hsk]
      refine storeOk_insert hst ?_
      simp [userOk]
    · simp [applyOp, createUser, hv, hst]
  | addSkills uid f =>
    rcases hg : st.get uid with _ | user
    · simp [applyOp, addSkills, hg, hst]
    · rcases hf : f with _ | sbs
      · simp [applyOp, addSkills, hg, hst]
      · by_cases hall : sbs.all (fun sb => sb.name.isSome)
        · simp [applyOp, addSkills, hg, hall]
          refine storeOk_insert hst ?_
          have huser := storeOk_get hst hg
          refine List.all_eq_true.mpr ?_
          intro s hs
          rcases List.mem_append.mp hs with h | h
          · exact (List.all_eq_true.mp huser) _ h
          · obtain ⟨sb, _, hsb⟩ := List.mem_map.mp h
            simp [← hsb, mkSkill, skillOk]
        · simp [applyOp, addSkills, hg, hall, hst]
  | verify uid sn b now =>
    by_cases hv : ratingBodyValid b
    · rcases hg : st.get uid with _ | user
      · simp [applyOp, verifySkill, hv, hg, hst]
      · rcases hg2 : st.get (b.userId.getD "") with _ | ver
        · simp [applyOp, verifySkill, hv, hg, hg2, hst]
        · rcases hfind : user.skills.find? (fun s => s.name == sn) with _ | skill
          · simp [applyOp, verifySkill, hv, hg, hg2, hfind, hst]
          · rcases hrat : skill.ratings.find?
                (fun r => r.userId == b.userId.getD "") with _ | r0
            · simp [applyOp, verifySkill, hv, hg, hg2, hfind, hrat]
              refine storeOk_insert hst ?_
              have huser := storeOk_get hst hg
              refine List.all_eq_true.mpr ?_
              intro s hs
              rcases mem_setFirstSkill hs with h | h
              · subst h; simp [skillOk]
              · exact (List.all_eq_true.mp huser) _ h
            · simp [applyOp, verifySkill, hv, hg, hg2, hfind, hrat, hst]
    · simp [applyOp, verifySkill, hv, hst]
  | update uid b =>
    simp [Op.plain, UserBody.plain] at hp
    by_cases hv : userBodyValid b
    · rcases hg : st.get uid with _ | user
      · simp [applyOp, updateUser, hv, hg, hst]
      · have hsk : b.skills = none := by
          rcases hb : b.skills with _ | s
          · rfl
          · simp [hb] at hp
        simp [applyOp, updateUser, hv, hg, hsk]
        refine storeOk_insert hst ?_
        have huser := storeOk_get hst hg
        simpa [userOk] using huser
    · simp [applyOp, updateUser, hv, hst]
  | removeSkill uid sn =>
    rcases hg : st.get uid with _ | user
    · simp [applyOp, removeSkill, hg, hst]
    · rcases hidx : user.skills.findIdx? (fun s => s.name == sn) with _ | idx
      · simp [applyOp, removeSkill, hg, hidx, hst]
      · simp [applyOp, removeSkill, hg, hidx]
        refine storeOk_insert hst ?_
        have huser := storeOk_get hst hg
        refine List.all_eq_true.mpr ?_
        intro s hs
        have hsub : user.skills.eraseIdx idx ⊆ user.skills :=
          (List.eraseIdx_sublist user.skills idx).subset
        exact (List.all_eq_true.mp huser) _ (hsub hs)
  | deleteUser uid =>
    rcases hg : st.get uid with _ | user
    · simp [applyOp, deleteUser, hg, hst]
    · simp [applyOp, deleteUser, hg]
      exact storeOk_remove hst

theorem run_storeOk {st : Store} {ops : List Op}
    (hst : storeOk st = true) (hp : ∀ op ∈ ops, op.plain = true) :
    storeOk (run st ops) = true := by
  induction ops generalizing st with
  | nil => simpa [run] using hst
  | cons op rest ih =>
    have h1 : storeOk (applyOp st op) = true :=
      applyOp_storeOk hst (hp op (by simp))
    have h2 : ∀ o ∈ rest, o.plain = true := fun o ho => hp o (by simp [ho])
    simpa [run] using ih h1 h2

/-! Concrete states and request sequences used as inputs below -/

/-- A body carrying only the documented fields name and age. -/
def plainBody (n : String) (a : Int) : UserBody :=
  { name := some n, age := some a, id := none, skills := none }

/-- A store with one user u1 that has no skills. -/
def oneUserStore : Store :=
  [("u1", { id := "u1", name := "U", age := 0, skills := [] })]

/-- A request sequence that smuggles a skills field through the PUT body
spread: the injected skill has verified true and no ratings. -/
def injectOps : List Op :=
  [ Op.create "u1" (plainBody "A" 1),
    Op.update "u1"
      { name := some "A", age := some 1, id := none,
        skills := some [{ name := "S", verified := true, ratings := [] }] } ]

/-- Claim C10: createUser spreads req.body after the generated fields, so a
valid body that also carries an id and a skills field yields a stored and
returned User whose id is the caller-supplied value (not the fresh one) and
whose initial skills list is the caller-supplied one (not empty). -/
theorem createUser_mass_assignment :
    (createUser [] "fresh-id"
        { name := some "Alice", age := some 30, id := some "chosen-id",
          skills := some [{ name := "S", verified := false, ratings := [] }] }).1 =
      CreateResult.created
        { id := "chosen-id", name := "Alice", age := 30,
          skills := [{ name := "S", verified := false, ratings := [] }] } ∧
    getUser (createUser [] "fresh-id"
        { name := some "Alice", age := some 30, id := some "chosen-id",
          skills := some [{ name := "S", verified := false, ratings := [] }] }).2
        "chosen-id" =
      some { id := "chosen-id", name := "Alice", age := 30,
             skills := [{ name := "S", verified := false, ratings := [] }] } ∧
    "chosen-id" ≠ "fresh-id" := by
  decide

/-- Claim C3 counterexample: AddSkills with the duplicate list [X, X] on a
user with no skills succeeds and stores two skills with the same name, so
the service does not enforce per-user uniqueness of skill names. -/
theorem addSkills_duplicate_names_cex :
    (addSkills oneUserStore "u1"
        (some [{ name := some "X" }, { name := some "X" }])).1 =
      AddSkillsResult.ok
        [{ name := "X", verified := false, ratings := [] },
         { name := "X", verified := false, ratings := [] }] ∧
    ¬ List.Nodup (List.map Skill.name
        [({ name := "X", verified := false, ratings := [] } : Skill),
         { name := "X", verified := false, ratings := [] }]) := by
  decide

/-- Claim C3 (amended): the service does not enforce uniqueness of skill
names. For every existing user and every skills array whose elements all
have string names — including arrays with repeated names — AddSkills
succeeds and appends one new skill per element, in order, with no
duplicate filtering. -/
theorem addSkills_no_uniqueness (st : Store) (uid : String) (user : User)
    (sbs : List SkillBody) (hu : st.get uid = some user)
    (hall : sbs.all (fun sb => sb.name.isSome) = true) :
    (addSkills st uid (some sbs)).1 =
      AddSkillsResult.ok (user.skills ++ sbs.map mkSkill) := by
  simp [addSkills, hu, hall]

theorem addSkills_no_uniqueness_witness :
    (addSkills oneUserStore "u1"
        (some [{ name := some "X" }, { name := some "X" }])).1 =
      AddSkillsResult.ok
        (({ id := "u1", name := "U", age := 0, skills := [] } : User).skills ++
          List.map mkSkill [{ name := some "X" }, { name := some "X" }]) :=
  addSkills_no_uniqueness oneUserStore "u1"
    { id := "u1", name := "U", age := 0, skills := [] }
    [{ name := some "X" }, { name := some "X" }] (by decide) (by decide)

/-- Claim C9: for every existing user, AddSkills with names X then Y
appends exactly two skills named X then Y in that order, each unverified
with empty ratings, and ListSkills on the resulting store returns the
skill sequence containing them in that insertion order. -/
theorem addSkills_two_in_order (st : Store) (uid x y : String) (user : User)
    (hu : st.get uid = some user) :
    (addSkills st uid (some [{ name := some x }, { name := some y }])).1 =
      AddSkillsResult.ok (user.skills ++
        [{ name := x, verified := false, ratings := [] },
         { name := y, verified := false, ratings := [] }]) ∧
    listSkills (addSkills st uid
        (some [{ name := some x }, { name := some y }])).2 uid =
      some (user.skills ++
        [{ name := x, verified := false, ratings := [] },
         { name := y, verified := false, ratings := [] }]) := by
  constructor
  · simp [addSkills, hu, mkSkill]
  · simp [addSkills, hu, mkSkill, listSkills, Store.get_insert_self]

theorem addSkills_two_in_order_witness :
    (addSkills oneUserStore "u1"
        (some [{ name := some "X" }, { name := some "Y" }])).1 =
      AddSkillsResult.ok
        (({ id := "u1", name := "U", age := 0, skills := [] } : User).skills ++
          [{ name := "X", verified := false, ratings := [] },
           { name := "Y", verified := false, ratings := [] }]) ∧
    listSkills (addSkills oneUserStore "u1"
        (some [{ name := some "X" }, { name := some "Y" }])).2 "u1" =
      some (({ id := "u1", name := "U", age := 0, skills := [] } : User).skills ++
        [{ name := "X", verified := false, ratings := [] },
         { name := "Y", verified := false, ratings := [] }]) :=
  addSkills_two_in_order oneUserStore "u1" "X" "Y"
    { id := "u1", name := "U", age := 0, skills := [] } (by decide)

/-- Claim C2 counterexample: the verified flag is not tied to the ratings
sequence in every reachable state. Starting from the empty store, a
CreateUser followed by an UpdateUser whose body also carries a skills
field (allowed by the object spread at PUT /users/:id) reaches a state
where a stored skill has verified true and an empty ratings list. -/
theorem verified_flag_reachability_cex :
    getUser (run [] injectOps) "u1" =
      some { id := "u1", name := "A", age := 1,
             skills := [{ name := "S", verified := true, ratings := [] }] } ∧
    ¬ (∀ p ∈ run [] injectOps, ∀ s ∈ p.2.skills,
        s.verified = decide (s.ratings.length > 0)) := by
  decide

/-- Claim C2 (amended): restricted to operation sequences in which every
CreateUser and UpdateUser body supplies only the documented fields name
and age (no caller-supplied id or skills riding the body spread), every
skill of every user stored in any state reachable from the empty store
satisfies verified = (ratings is non-empty). -/
theorem verified_flag_invariant (ops : List Op)
    (hp : ∀ op ∈ ops, op.plain = true) :
    ∀ p ∈ run [] ops, ∀ s ∈ p.2.skills,
      s.verified = decide (s.ratings.length > 0) := by
  have h : storeOk (run [] ops) = true :=
    run_storeOk (by simp [storeOk]) hp
  intro p hpmem s hs
  have hu := (List.all_eq_true.mp h) _ hpmem
  have hsx := (List.all_eq_true.mp hu) _ hs
  simpa [skillOk] using hsx

theorem verified_flag_invariant_witness :
    (∀ op ∈ [ Op.create "u1" (plainBody "A" 1),
              Op.addSkills "u1" (some [{ name := some "Go" }]),
              Op.verify "u1" "Go"
                { userId := some "u1", score := some 4, comment := none } 0 ],
        op.plain = true) ∧
    (∀ p ∈ run [] [ Op.create "u1" (plainBody "A" 1),
              Op.addSkills "u1" (some [{ name := some "Go" }]),
              Op.verify "u1" "Go"
                { userId := some "u1", score := some 4, comment := none } 0 ],
        ∀ s ∈ p.2.skills, s.verified = decide (s.ratings.length > 0)) :=
  ⟨by decide, verified_flag_invariant _ (by decide)⟩

/-- A store with user a owning skill go already rated by user b. -/
def ratedStore : Store :=
  [("a", { id := "a", name := "A", age := 1,
           skills := [{ name := "go", verified := true,
                        ratings := [{ userId := "b", score := 4,
                                      comment := none, createdAt := 0 }] }] }),
   ("b", { id := "b", name := "B", age := 2, skills := [] })]

/-- A store with users a and b where a owns no skill at all. -/
def noSkillStore : Store :=
  [("a", { id := "a", name := "A", age := 1, skills := [] }),
   ("b", { id := "b", name := "B", age := 2, skills := [] })]

/-- A store with users a and b where a owns the unrated skill go. -/
def unratedStore : Store :=
  [("a", { id := "a", name := "A", age := 1,
           skills := [{ name := "go", verified := false, ratings := [] }] }),
   ("b", { id := "b", name := "B", age := 2, skills := [] })]

/-- Claim C1: when the verifier already has a rating on the skill, a second
VerifySkill call with any valid score fails on the existing-rating check
(the Conflict branch of the handler) and leaves the store — hence the
ratings of the skill — unchanged, so at most one rating per (skill,
verifier) pair is ever appended by VerifySkill. -/
theorem verify_duplicate_conflict (st : Store) (uid sn vid : String)
    (user : User) (skill : Skill) (sc : Int) (c : Option String) (now : Nat)
    (hsc1 : 1 ≤ sc) (hsc5 : sc ≤ 5)
    (hu : st.get uid = some user)
    (hv : (st.get vid).isSome = true)
    (hs : user.skills.find? (fun s => s.name == sn) = some skill)
    (hr : ∃ r ∈ skill.ratings, r.userId = vid) :
    verifySkill st uid sn
      { userId := some vid, score := some sc, comment := c } now =
      (VerifyResult.conflict, st) := by
  obtain ⟨ver, hver⟩ := Option.isSome_iff_exists.mp hv
  obtain ⟨r, hrm, hrv⟩ := hr
  have hfind : (skill.ratings.find? (fun r => r.userId == vid)).isSome = true :=
    List.find?_isSome.mpr ⟨r, hrm, by simp [hrv]⟩
  obtain ⟨r0, hr0⟩ := Option.isSome_iff_exists.mp hfind
  have hvld : ratingBodyValid
      { userId := some vid, score := some sc, comment := c } = true := by
    simp [ratingBodyValid, hsc1, hsc5]
  simp [verifySkill, hvld, hu, hver, hs, hr0]

theorem verify_duplicate_conflict_witness :
    verifySkill ratedStore "a" "go"
      { userId := some "b", score := some 4, comment := none } 7 =
      (VerifyResult.conflict, ratedStore) :=
  verify_duplicate_conflict ratedStore "a" "go" "b"
    { id := "a", name := "A", age := 1,
      skills := [{ name := "go", verified := true,
                   ratings := [{ userId := "b", score := 4,
                                 comment := none, createdAt := 0 }] }] }
    { name := "go", verified := true,
      ratings := [{ userId := "b", score := 4,
                    comment := none, createdAt := 0 }] }
    4 none 7 (by decide) (by decide) (by decide) (by decide) (by decide)
    (by decide)

/-- Claim C4 counterexample: with both users a and b present, no skill
named go on a, and the out-of-range score 0, the verify handler answers
with its validation branch, not its not-found branch, because
validationResult is read before any lookup. -/
theorem verify_check_order_cex :
    (verifySkill noSkillStore "a" "go"
        { userId := some "b", score := some 0, comment := none } 0).1 =
      VerifyResult.validationError ∧
    (verifySkill noSkillStore "a" "go"
        { userId := some "b", score := some 0, comment := none } 0).1 ≠
      VerifyResult.notFound := by
  decide

/-- Claim C4 (amended): VerifySkill checks score validity before skill
existence. For every request where userId and verifierId resolve to
existing users, skillName matches no skill owned by userId, and the score
is outside [1,5], the call fails with ValidationError and leaves the
store unchanged. -/
theorem verify_validation_first (st : Store) (uid sn vid : String)
    (user : User) (sc : Int) (c : Option String) (now : Nat)
    (_hu : st.get uid = some user)
    (_hv : (st.get vid).isSome = true)
    (_hs : user.skills.find? (fun s => s.name == sn) = none)
    (hsc : sc < 1 ∨ 5 < sc) :
    verifySkill st uid sn
      { userId := some vid, score := some sc, comment := c } now =
      (VerifyResult.validationError, st) := by
  have hvld : ratingBodyValid
      { userId := some vid, score := some sc, comment := c } = false := by
    simp [ratingBodyValid]
    omega
  simp [verifySkill, hvld]

theorem verify_validation_first_witness :
    verifySkill noSkillStore "a" "go"
      { userId := some "b", score := some 0, comment := none } 0 =
      (VerifyResult.validationError, noSkillStore) :=
  verify_validation_first noSkillStore "a" "go" "b"
    { id := "a", name := "A", age := 1, skills := [] }
    0 none 0 (by decide) (by decide) (by decide) (by decide)

/-- A store with the single valid user a. -/
def oldUserStore : Store :=
  [("a", { id := "a", name := "Old", age := 7, skills := [] })]

/-- Claim C5 counterexample: on an existing, valid user, an UpdateUser body
supplying only a valid non-empty name (age absent) does not succeed: the
userInputValidator requires age as well, so the call fails its validation
branch and no merge happens. -/
theorem update_partial_body_cex :
    updateUser oldUserStore "a"
      { name := some "Bob", age := none, id := none, skills := none } =
      (UpdateResult.validationError, oldUserStore) ∧
    ∀ u : User, (updateUser oldUserStore "a"
      { name := some "Bob", age := none, id := none, skills := none }).1 ≠
      UpdateResult.ok u := by
  refine ⟨by decide, ?_⟩
  intro u
  have h1 : (updateUser oldUserStore "a"
      { name := some "Bob", age := none, id := none, skills := none }).1 =
      UpdateResult.validationError := by decide
  rw [h1]
  simp

/-- Claim C5 (amended): UpdateUser does not accept partial bodies. The
validator on PUT requires both name and age, so every request whose body
omits age fails with ValidationError — regardless of the stored record —
and the store is unchanged. -/
theorem update_requires_full_body (st : Store) (uid : String) (b : UserBody)
    (ha : b.age = none) :
    updateUser st uid b = (UpdateResult.validationError, st) := by
  have hv : userBodyValid b = false := by
    rcases hb : b.name with _ | n <;> simp [userBodyValid, hb, ha]
  simp [updateUser, hv]

theorem update_requires_full_body_witness :
    updateUser oldUserStore "a"
      { name := some "Carol", age := none, id := none, skills := none } =
      (UpdateResult.validationError, oldUserStore) :=
  update_requires_full_body oldUserStore "a"
    { name := some "Carol", age := none, id := none, skills := none } rfl

/-- Claim C6: score boundaries. For an existing user with the named skill,
an existing verifier with no prior rating on that skill, VerifySkill with
score 0 or 6 fails with ValidationError and no mutation, while score 1
and score 5 both succeed, returning the skill with a rating of that score
appended and verified true. -/
theorem verify_score_boundaries (st : Store) (uid sn vid : String)
    (user : User) (skill : Skill) (c : Option String) (now : Nat)
    (hu : st.get uid = some user)
    (hv : (st.get vid).isSome = true)
    (hs : user.skills.find? (fun s => s.name == sn) = some skill)
    (hr : ∀ r ∈ skill.ratings, r.userId ≠ vid) :
    (verifySkill st uid sn
        { userId := some vid, score := some 0, comment := c } now =
      (VerifyResult.validationError, st)) ∧
    (verifySkill st uid sn
        { userId := some vid, score := some 6, comment := c } now =
      (VerifyResult.validationError, st)) ∧
    ((verifySkill st uid sn
        { userId := some vid, score := some 1, comment := c } now).1 =
      VerifyResult.ok
        { skill with
            ratings := skill.ratings ++
              [{ userId := vid, score := 1, comment := c, createdAt := now }]
            verified := true }) ∧
    ((verifySkill st uid sn
        { userId := some vid, score := some 5, comment := c } now).1 =
      VerifyResult.ok
        { skill with
            ratings := skill.ratings ++
              [{ userId := vid, score := 5, comment := c, createdAt := now }]
            verified := true }) := by
  obtain ⟨ver, hver⟩ := Option.isSome_iff_exists.mp hv
  have hfind : skill.ratings.find? (fun r => r.userId == vid) = none :=
    List.find?_eq_none.mpr (fun r hm => by simp [hr r hm])
  refine ⟨?_, ?_, ?_, ?_⟩
  · have hvld : ratingBodyValid
        { userId := some vid, score := some 0, comment := c } = false := by
      simp [ratingBodyValid]
    simp [verifySkill, hvld]
  · have hvld : ratingBodyValid
        { userId := some vid, score := some 6, comment := c } = false := by
      simp [ratingBodyValid]
    simp [verifySkill, hvld]
  · have hvld : ratingBodyValid
        { userId := some vid, score := some 1, comment := c } = true := by
      simp [ratingBodyValid]
    simp [verifySkill, hvld, hu, hver, hs, hfind]
  · have hvld : ratingBodyValid
        { userId := some vid, score := some 5, comment := c } = true := by
      simp [ratingBodyValid]
    simp [verifySkill, hvld, hu, hver, hs, hfind]

theorem verify_score_boundaries_witness :
    (verifySkill unratedStore "a" "go"
        { userId := some "b", score := some 0, comment := none } 3 =
      (VerifyResult.validationError, unratedStore)) ∧
    (verifySkill unratedStore "a" "go"
        { userId := some "b", score := some 6, comment := none } 3 =
      (VerifyResult.validationError, unratedStore)) ∧
    ((verifySkill unratedStore "a" "go"
        { userId := some "b", score := some 1, comment := none } 3).1 =
      VerifyResult.ok
        { name := "go", verified := true,
          ratings := [{ userId := "b", score := 1, comment := none,
                        createdAt := 3 }] }) ∧
    ((verifySkill unratedStore "a" "go"
        { userId := some "b", score := some 5, comment := none } 3).1 =
      VerifyResult.ok
        { name := "go", verified := true,
          ratings := [{ userId := "b", score := 5, comment := none,
                        createdAt := 3 }] }) :=
  verify_score_boundaries unratedStore "a" "go" "b"
    { id := "a", name := "A", age := 1,
      skills := [{ name := "go", verified := false, ratings := [] }] }
    { name := "go", verified := false, ratings := [] }
    none 3 (by decide) (by decide) (by decide) (by decide)

/-- Claim C7: failure atomicity. For every operation of the service and
every state on which the operation does not succeed (its result is a
ValidationError, NotFound or Conflict response), the store after the call
— including the record of the target user aggregate — is exactly the
store before it. -/
theorem failure_atomicity (st : Store) (op : Op)
    (h : opOk st op = false) : applyOp st op = st := by
  cases op with
  | create fid b =>
    by_cases hv : userBodyValid b
    · simp [opOk, createUser, hv] at h
    · simp [applyOp, createUser, hv]
  | addSkills uid f =>
    rcases hg : st.get uid with _ | user
    · simp [applyOp, addSkills, hg]
    · rcases hf : f with _ | sbs
      · simp [applyOp, addSkills, hg]
      · by_cases hall : sbs.all (fun sb => sb.name.isSome)
        · simp [opOk, addSkills, hg, hf, hall] at h
        · simp [applyOp, addSkills, hg, hf, hall]
  | verify uid sn b now =>
    by_cases hv : ratingBodyValid b
    · rcases hg : st.get uid with _ | user
      · simp [applyOp, verifySkill, hv, hg]
      · rcases hg2 : st.get (b.userId.getD "") with _ | ver
        · simp [applyOp, verifySkill, hv, hg, hg2]
        · rcases hfind : user.skills.find? (fun s => s.name == sn) with _ | skill
          · simp [applyOp, verifySkill, hv, hg, hg2, hfind]
          · rcases hrat : skill.ratings.find?
                (fun r => r.userId == b.userId.getD "") with _ | r0
            · simp [opOk, verifySkill, hv, hg, hg2, hfind, hrat] at h
            · simp [applyOp, verifySkill, hv, hg, hg2, hfind, hrat]
    · simp [applyOp, verifySkill, hv]
  | update uid b =>
    by_cases hv : userBodyValid b
    · rcases hg : st.get uid with _ | user
      · simp [applyOp, updateUser, hv, hg]
      · simp [opOk, updateUser, hv, hg] at h
    · simp [applyOp, updateUser, hv]
  | removeSkill uid sn =>
    rcases hg : st.get uid with _ | user
    · simp [applyOp, removeSkill, hg]
    · rcases hidx : user.skills.findIdx? (fun s => s.name == sn) with _ | idx
      · simp [applyOp, removeSkill, hg, hidx]
      · simp [opOk, removeSkill, hg, hidx] at h
  | deleteUser uid =>
    rcases hg : st.get uid with _ | user
    · simp [applyOp, deleteUser, hg]
    · simp [opOk, deleteUser, hg] at h

theorem failure_atomicity_witness :
    applyOp oneUserStore
      (Op.verify "u1" "go"
        { userId := some "nobody", score := some 3, comment := none } 0) =
      oneUserStore :=
  failure_atomicity oneUserStore
    (Op.verify "u1" "go"
      { userId := some "nobody", score := some 3, comment := none } 0)
    (by decide)

/-- Claim C8: UpdateUser frame. For every existing user and every
successful update whose body provides exactly a name and a non-negative
age (no skills, no id), the merged record keeps the stored id and the
stored skill list element for element, and it is what the store then
holds at that id. -/
theorem update_frame (st : Store) (uid n : String) (a : Int) (user : User)
    (ha : 0 ≤ a) (hu : st.get uid = some user) :
    ∃ u2 : User,
      updateUser st uid
          { name := some n, age := some a, id := none, skills := none } =
        (UpdateResult.ok u2, st.insert uid u2) ∧
      u2.id = user.id ∧ u2.skills = user.skills ∧
      u2.name = n ∧ u2.age = a ∧
      Store.get (updateUser st uid
          { name := some n, age := some a, id := none, skills := none }).2
        uid = some u2 := by
  have hv : userBodyValid
      { name := some n, age := some a, id := none, skills := none } = true := by
    simp [userBodyValid, ha]
  have hres : updateUser st uid
      { name := some n, age := some a, id := none, skills := none } =
      (UpdateResult.ok
        { id := user.id, name := n, age := a, skills := user.skills },
       st.insert uid
        { id := user.id, name := n, age := a, skills := user.skills }) := by
    simp [updateUser, hv, hu]
  refine ⟨{ id := user.id, name := n, age := a, skills := user.skills },
    hres, rfl, rfl, rfl, rfl, ?_⟩
  rw [hres]
  exact Store.get_insert_self st uid _

theorem update_frame_witness :
    ∃ u2 : User,
      updateUser ratedStore "a"
          { name := some "Anna", age := some 9, id := none, skills := none } =
        (UpdateResult.ok u2, ratedStore.insert "a" u2) ∧
      u2.id = "a" ∧
      u2.skills = [{ name := "go", verified := true,
                     ratings := [{ userId := "b", score := 4,
                                   comment := none, createdAt := 0 }] }] ∧
      u2.name = "Anna" ∧ u2.age = 9 ∧
      Store.get (updateUser ratedStore "a"
          { name := some "Anna", age := some 9, id := none, skills := none }).2
        "a" = some u2 :=
  update_frame ratedStore "a" "Anna" 9
    { id := "a", name := "A", age := 1,
      skills := [{ name := "go", verified := true,
                   ratings := [{ userId := "b", score := 4,
                                 comment := none, createdAt := 0 }] }] }
    (by decide) (by decide)

end SkillVerify
